import Mathlib

/-!
Shallow embedding of the Loyverse sync pipeline from `routes/index.js`:
the `POST /api/sync` orchestration (watermark read, customer/receipt fetch,
upserts, stub inserts, receipt and line-item inserts, document building,
indexing call, watermark append, commit/rollback) and `GET /api/sync-status`.

Instants (JS `Date` values) are modelled as `Nat`. The remote POS API and
the indexing microservice are modelled as oracles passed in as functions.
MySQL transactions are modelled the standard way: the body of the sync
computes on a working copy of the database; `commit` installs the copy and
`rollback` discards it, returning the pre-transaction state.
-/

namespace LoyverseSync

/-- A customer object as returned by the POS customers endpoint
(fields read at the upsert site in the sync handler). -/
structure CustomerRecord where
  id : String
  name : String
  email : String
  phone_number : String
  total_visits : Nat
  total_spent : Int
  updated_at : Nat
deriving Repr, DecidableEq

/-- A row of the `customers` relation. Modelled from the spec: the DDL
(`schema.sql`) is not under src/; per the spec data model, customers are
keyed by the external POS id, and columns a stub insert does not supply
are NULL (here `Option.none`). -/
structure CustomerRow where
  id : String
  name : String
  email : Option String
  phone_number : Option String
  total_visits : Option Nat
  total_spent : Option Int
  updated_at : Nat
deriving Repr, DecidableEq

/-- A line item nested in a receipt object from the POS receipts endpoint. -/
structure LineItemRecord where
  item_name : String
  quantity : Nat
  price : Int
deriving Repr, DecidableEq

/-- A receipt object as returned by the POS receipts endpoint. -/
structure ReceiptRecord where
  receipt_number : String
  created_at : Nat
  total_money : Int
  total_tax : Int
  source : String
  customer_id : Option String
  line_items : List LineItemRecord
deriving Repr, DecidableEq

/-- A row of the `receipts` relation. Modelled from the spec: the DDL is
not under src/; per the spec data model `receipt_number` is the unique key. -/
structure ReceiptRow where
  receipt_number : String
  created_at : Nat
  total_money : Int
  total_tax : Int
  source : String
  customer_id : Option String
deriving Repr, DecidableEq

/-- A row of the `line_items` relation. -/
structure LineItemRow where
  receipt_number : String
  item_name : String
  quantity : Nat
  price : Int
deriving Repr, DecidableEq

/-- The relational store. Modelled from the spec: the DDL is not under
src/; `sync_log` is the append-only watermark log, kept here in insertion
order (ascending auto-increment id), so the `ORDER BY id DESC LIMIT 1`
read is the last element. -/
structure DB where
  customers : List CustomerRow
  receipts : List ReceiptRow
  line_items : List LineItemRow
  sync_log : List Nat
deriving Repr, DecidableEq

/-- The query parameters built once per sync and passed to both POS fetches
(`created_at_min`, `created_at_max`, `limit`). -/
structure SyncParams where
  created_at_min : Nat
  created_at_max : Nat
  limit : Nat
deriving Repr, DecidableEq

/-- Body of the POS customers response; the `customers` field may be
absent (`none`), which the handler defaults to an empty list. -/
structure CustomersResponse where
  customers : Option (List CustomerRecord)
deriving Repr, DecidableEq

/-- Body of the POS receipts response; the `receipts` field may be
absent (`none`), which the handler does not default. -/
structure ReceiptsResponse where
  receipts : Option (List ReceiptRecord)
deriving Repr, DecidableEq

/-- The exceptions that can be thrown inside the sync try-block: the
watermark read on an empty log, a failed POS fetch, the missing receipts
field, a duplicate receipt insert, any other SQL write failing (injected
by a fault oracle, indexed by the count of writes so far), and a failed
indexing call. -/
inductive SyncError where
  | watermarkMissing : SyncError
  | fetchCustomersFailed : SyncError
  | fetchReceiptsFailed : SyncError
  | missingReceiptsField : SyncError
  | duplicateReceipt : String → SyncError
  | persistenceFailed : Nat → SyncError
  | indexingFailed : SyncError
deriving Repr, DecidableEq

/-- An HTTP response sent back to the caller: status code and body message. -/
structure ApiResponse where
  status : Nat
  body : String
deriving Repr, DecidableEq

/-- The customers row written by the upsert for one fetched record
(all columns supplied). -/
def rowOfRecord (c : CustomerRecord) : CustomerRow :=
  ⟨c.id, c.name, some c.email, some c.phone_number, some c.total_visits,
    some c.total_spent, c.updated_at⟩

/-- The `INSERT ... ON DUPLICATE KEY UPDATE` for one customer record: on a
key collision every non-key column named in the UPDATE clause (name, email,
phone_number, total_visits, total_spent, updated_at) is overwritten with the
inserted values, otherwise a new row is inserted. -/
def upsertCustomer (rows : List CustomerRow) (c : CustomerRecord) : List CustomerRow :=
  if rows.any (fun r => r.id == c.id) then
    rows.map (fun r => if r.id == c.id then rowOfRecord c else r)
  else
    rows ++ [rowOfRecord c]

/-- The loop over fetched customers in step 2 of the handler; each iteration
is one SQL write, which the fault oracle may fail. Returns the updated
customers relation and the write counter. -/
def upsertCustomersLoop (faults : Nat → Bool) :
    Nat → List CustomerRow → List CustomerRecord →
    Except SyncError (List CustomerRow × Nat)
  | k, rows, [] => Except.ok (rows, k)
  | k, rows, c :: rest =>
    if faults k then Except.error (SyncError.persistenceFailed k)
    else upsertCustomersLoop faults (k + 1) (upsertCustomer rows c) rest

/-- The placeholder row written by the fallback
`INSERT IGNORE INTO customers (id, name, updated_at)`. -/
def stubRow (cid : String) (createdAt : Nat) : CustomerRow :=
  ⟨cid, "Unknown Customer", none, none, none, none, createdAt⟩

/-- The `INSERT IGNORE` customer placeholder: a no-op when a row with the
id already exists, a plain insert otherwise. -/
def insertIgnoreStub (rows : List CustomerRow) (cid : String) (createdAt : Nat) :
    List CustomerRow :=
  if rows.any (fun r => r.id == cid) then rows
  else rows ++ [stubRow cid createdAt]

/-- The receipts row written for one fetched receipt. -/
def receiptRowOf (r : ReceiptRecord) : ReceiptRow :=
  ⟨r.receipt_number, r.created_at, r.total_money, r.total_tax, r.source, r.customer_id⟩

/-- The clause pushed onto `itemSummaries` for one line item. -/
def itemSummary (it : LineItemRecord) : String :=
  toString it.quantity ++ " of " ++ it.item_name

/-- The inner loop over a receipt line items: each iteration inserts one
`line_items` row (one SQL write, which the fault oracle may fail) and pushes
the item summary clause. -/
def lineItemsLoop (faults : Nat → Bool) (rn : String) :
    Nat → List LineItemRow → List String → List LineItemRecord →
    Except SyncError (List LineItemRow × List String × Nat)
  | k, rows, summaries, [] => Except.ok (rows, summaries, k)
  | k, rows, summaries, it :: rest =>
    if faults k then Except.error (SyncError.persistenceFailed k)
    else lineItemsLoop faults rn (k + 1)
      (rows ++ [⟨rn, it.item_name, it.quantity, it.price⟩])
      (summaries ++ [itemSummary it]) rest

/-- The customer placeholder step at the head of one receipt iteration:
one SQL write when `customer_id` is present, nothing otherwise. -/
def stubStep (faults : Nat → Bool) (k : Nat) (db : DB) (r : ReceiptRecord) :
    Except SyncError (List CustomerRow × Nat) :=
  match r.customer_id with
  | some cid =>
    if faults k then Except.error (SyncError.persistenceFailed k)
    else Except.ok (insertIgnoreStub db.customers cid r.created_at, k + 1)
  | none => Except.ok (db.customers, k)

/-- Step 4 of the handler: for each fetched receipt, insert the customer
placeholder when `customer_id` is present, insert the receipt (a plain
insert; per the spec-modelled schema a `receipt_number` collision throws),
insert its line items, and push the built document. Returns the updated
working database, the accumulated documents and the write counter. -/
def processReceipts (fd : Nat → String) (faults : Nat → Bool) :
    Nat → DB → List String → List ReceiptRecord →
    Except SyncError (DB × List String × Nat)
  | k, db, docs, [] => Except.ok (db, docs, k)
  | k, db, docs, r :: rest =>
    match stubStep faults k db r with
    | Except.error e => Except.error e
    | Except.ok (custRows, k1) =>
      if db.receipts.any (fun row => row.receipt_number == r.receipt_number) then
        Except.error (SyncError.duplicateReceipt r.receipt_number)
      else if faults k1 then Except.error (SyncError.persistenceFailed k1)
      else
        match lineItemsLoop faults r.receipt_number (k1 + 1) db.line_items [] r.line_items with
        | Except.error e => Except.error e
        | Except.ok (liRows, summaries, k2) =>
          processReceipts fd faults k2
            { db with customers := custRows,
                      receipts := db.receipts ++ [receiptRowOf r],
                      line_items := liRows }
            (docs ++ ["On " ++ fd r.created_at ++ ", receipt " ++ r.receipt_number ++
              " was created totaling " ++ toString r.total_money ++ ". Items sold: " ++
              String.intercalate ", " summaries ++ "."]) rest

/-- The document the handler builds for one receipt, in closed form: the
loop in `processReceipts` accumulates exactly this text (proved below). -/
def buildSummary (fd : Nat → String) (r : ReceiptRecord) : String :=
  "On " ++ fd r.created_at ++ ", receipt " ++ r.receipt_number ++
    " was created totaling " ++ toString r.total_money ++ ". Items sold: " ++
    String.intercalate ", " (r.line_items.map itemSummary) ++ "."

/-- The query parameters the handler builds once from the watermark and the
captured `now` (`limit` is the fixed page size 250). -/
def mkSyncParams (lastSync now : Nat) : SyncParams :=
  ⟨lastSync, now, 250⟩

/-- Steps 4-7 of the handler, after both fetches succeeded and the customer
upsert loop ran: the empty-batch early return, receipt processing, the
indexing call (made only when documents were built, before the watermark
write), the watermark append, and the success message. -/
def syncTail (fd : Nat → String) (faults : Nat → Bool) (embed : List String → Bool)
    (now : Nat) (db : DB) (custRows : List CustomerRow) (k1 : Nat)
    (customers : List CustomerRecord) (receipts : List ReceiptRecord) :
    Except SyncError (DB × List String × String) :=
  if receipts.length = 0 ∧ customers.length = 0 then
    Except.ok ({ db with customers := custRows }, [], "No new data to sync.")
  else
    match processReceipts fd faults k1 { db with customers := custRows } [] receipts with
    | Except.error e => Except.error e
    | Except.ok (db2, docs, k2) =>
      if docs.length > 0 ∧ embed docs = false then
        Except.error SyncError.indexingFailed
      else if faults k2 then Except.error (SyncError.persistenceFailed k2)
      else Except.ok ({ db2 with sync_log := db2.sync_log ++ [now] }, docs,
        "Successfully synced " ++ toString receipts.length ++ " receipts and " ++
        toString customers.length ++ " customers.")

/-- The try-block of `POST /api/sync`, from the watermark read up to (but
not including) the commit: `fd` is the date formatter (`toLocaleString`),
`faults` the SQL write fault oracle, `embed` the indexing microservice
(given the document batch, returns whether the call succeeds), `fc` and
`fr` the two POS fetches, `now` the instant captured once at the start.
On success returns the committed database, the documents handed to the
indexing service, and the response message. -/
def syncBody (fd : Nat → String) (faults : Nat → Bool) (embed : List String → Bool)
    (fc : SyncParams → Except Unit CustomersResponse)
    (fr : SyncParams → Except Unit ReceiptsResponse)
    (now : Nat) (db : DB) : Except SyncError (DB × List String × String) :=
  match db.sync_log.getLast? with
  | none => Except.error SyncError.watermarkMissing
  | some lastSync =>
    match fc (mkSyncParams lastSync now) with
    | Except.error _ => Except.error SyncError.fetchCustomersFailed
    | Except.ok custResp =>
      match upsertCustomersLoop faults 0 db.customers (custResp.customers.getD []) with
      | Except.error e => Except.error e
      | Except.ok (custRows, k1) =>
        match fr (mkSyncParams lastSync now) with
        | Except.error _ => Except.error SyncError.fetchReceiptsFailed
        | Except.ok rcptResp =>
          match rcptResp.receipts with
          | none => Except.error SyncError.missingReceiptsField
          | some receipts =>
            syncTail fd faults embed now db custRows k1
              (custResp.customers.getD []) receipts

/-- The body of the generic 500 response produced by the catch handler. -/
def errorBody : String := "An error occurred during synchronization."

/-- The whole `POST /api/sync` endpoint: run the try-block on the current
database; on success commit (install the working copy) and answer 200 with
the success message, on any exception roll back (keep the pre-transaction
database) and answer 500. Returns the post-request database and response. -/
def apiSync (fd : Nat → String) (faults : Nat → Bool) (embed : List String → Bool)
    (fc : SyncParams → Except Unit CustomersResponse)
    (fr : SyncParams → Except Unit ReceiptsResponse)
    (now : Nat) (db : DB) : DB × ApiResponse :=
  match syncBody fd faults embed fc fr now db with
  | Except.ok (db2, _, msg) => (db2, ⟨200, msg⟩)
  | Except.error _ => (db, ⟨500, errorBody⟩)

/-- The `GET /api/sync-status` endpoint: 404 with a distinct message when
the watermark log is empty, otherwise 200 with the formatted most recent
watermark (`fmt` is the locale date formatting). -/
def syncStatus (fmt : Nat → String) (db : DB) : ApiResponse :=
  match db.sync_log.getLast? with
  | none => ⟨404, "No sync has been performed yet."⟩
  | some t => ⟨200, fmt t⟩

/-- One sync invocation environment: formatter, fault oracle, indexing
service, the two POS fetch oracles, and the instant captured at its start. -/
structure Invocation where
  fd : Nat → String
  faults : Nat → Bool
  embed : List String → Bool
  fc : SyncParams → Except Unit CustomersResponse
  fr : SyncParams → Except Unit ReceiptsResponse
  now : Nat

/-- Sequential runs of `POST /api/sync`, threading the database. -/
def runSyncs : DB → List Invocation → DB
  | db, [] => db
  | db, i :: rest => runSyncs (apiSync i.fd i.faults i.embed i.fc i.fr i.now db).1 rest

/-! ## Concrete fixtures used by witness theorems -/

/-- A date formatter standing in for `toLocaleString`. -/
def fdX : Nat → String := fun n => "D" ++ toString n

/-- Fault oracle: no SQL write fails. -/
def noFaults : Nat → Bool := fun _ => false

/-- Fault oracle: the fourth SQL write of the run (index 3) fails. -/
def faultsAt3 : Nat → Bool := fun k => k == 3

/-- Indexing service that always succeeds. -/
def embedYes : List String → Bool := fun _ => true

/-- Indexing service that always fails. -/
def embedNo : List String → Bool := fun _ => false

/-- Indexing service that succeeds exactly on one-document batches. -/
def embedOneDoc : List String → Bool := fun ds => ds.length == 1

/-- A fetched customer record. -/
def custA : CustomerRecord := ⟨"C1", "Alice", "alice@pos", "555", 3, 40, 10⟩

/-- Two fetched line items. -/
def itemA : LineItemRecord := ⟨"Latte", 2, 5⟩

/-- Second fetched line item. -/
def itemB : LineItemRecord := ⟨"Bagel", 1, 3⟩

/-- A fetched receipt referencing customer C1 with two line items. -/
def rcptA : ReceiptRecord := ⟨"R-100", 12, 13, 1, "POS", some "C1", [itemA, itemB]⟩

/-- A database with one prior watermark and empty relations. -/
def dbA : DB := ⟨[], [], [], [5]⟩

/-- A database with no watermark at all (first run). -/
def dbEmpty : DB := ⟨[], [], [], []⟩

/-- A database already holding receipt R-100. -/
def dbDup : DB := ⟨[], [receiptRowOf rcptA], [], [5]⟩

/-- Customers fetch whose response body lacks the customers field. -/
def fcNone : SyncParams → Except Unit CustomersResponse := fun _ => Except.ok ⟨none⟩

/-- Customers fetch returning an empty list. -/
def fcEmpty : SyncParams → Except Unit CustomersResponse := fun _ => Except.ok ⟨some []⟩

/-- Customers fetch returning one customer. -/
def fcOneA : SyncParams → Except Unit CustomersResponse := fun _ => Except.ok ⟨some [custA]⟩

/-- Customers fetch that only answers a window ending at instant 7. -/
def fcAlt : SyncParams → Except Unit CustomersResponse := fun p =>
  if p.created_at_max == 7 then Except.ok ⟨some []⟩ else Except.error ()

/-- Receipts fetch returning an empty list. -/
def frEmpty : SyncParams → Except Unit ReceiptsResponse := fun _ => Except.ok ⟨some []⟩

/-- Receipts fetch returning one receipt. -/
def frOneA : SyncParams → Except Unit ReceiptsResponse := fun _ => Except.ok ⟨some [rcptA]⟩

/-- Receipts fetch whose response body lacks the receipts field. -/
def frNone : SyncParams → Except Unit ReceiptsResponse := fun _ => Except.ok ⟨none⟩

/-- A successful sync invocation at instant 7 (one customer, no receipts). -/
def invA : Invocation := ⟨fdX, noFaults, embedYes, fcOneA, frEmpty, 7⟩

/-- A no-op sync invocation at instant 9. -/
def invB : Invocation := ⟨fdX, noFaults, embedYes, fcEmpty, frEmpty, 9⟩

/-- The result of processing the fetched receipt rcptA over dbA. -/
def outA : DB × List String × Nat :=
  (⟨[stubRow "C1" 12], [receiptRowOf rcptA],
      [⟨"R-100", "Latte", 2, 5⟩, ⟨"R-100", "Bagel", 1, 3⟩], [5]⟩,
    ["On D12, receipt R-100 was created totaling 13. Items sold: 2 of Latte, 1 of Bagel."],
    4)

/-- The successful result of the invocation invA run over dbA. -/
def outB : DB × List String × String :=
  (⟨[rowOfRecord custA], [], [], [5, 7]⟩, [],
    "Successfully synced 0 receipts and 1 customers.")

/-! ## Supporting lemmas -/

lemma apiSync_of_error {fd : Nat → String} {faults : Nat → Bool}
    {embed : List String → Bool} {fc : SyncParams → Except Unit CustomersResponse}
    {fr : SyncParams → Except Unit ReceiptsResponse} {now : Nat} {db : DB}
    {e : SyncError} (h : syncBody fd faults embed fc fr now db = Except.error e) :
    apiSync fd faults embed fc fr now db = (db, ⟨500, errorBody⟩) := by
  simp [apiSync, h]

lemma lineItemsLoop_ok_summaries {faults : Nat → Bool} {rn : String} :
    ∀ {k : Nat} {rows : List LineItemRow} {summaries : List String}
      {items : List LineItemRecord} {out : List LineItemRow × List String × Nat},
      lineItemsLoop faults rn k rows summaries items = Except.ok out →
      out.2.1 = summaries ++ items.map itemSummary := by
  intro k rows summaries items
  induction items generalizing k rows summaries with
  | nil =>
    intro out h
    simp only [lineItemsLoop, Except.ok.injEq] at h
    simp [← h]
  | cons it rest ih =>
    intro out h
    simp only [lineItemsLoop] at h
    by_cases hf : faults k = true
    · simp [hf] at h
    · simp only [hf, Bool.false_eq_true, if_false] at h
      have := ih h
      simpa [List.append_assoc] using this

lemma processReceipts_ok_docs {fd : Nat → String} {faults : Nat → Bool} :
    ∀ {k : Nat} {db : DB} {docs : List String} {rs : List ReceiptRecord}
      {out : DB × List String × Nat},
      processReceipts fd faults k db docs rs = Except.ok out →
      out.2.1 = docs ++ rs.map (buildSummary fd) := by
  intro k db docs rs
  induction rs generalizing k db docs with
  | nil =>
    intro out h
    simp only [processReceipts, Except.ok.injEq] at h
    simp [← h]
  | cons r rest ih =>
    intro out h
    simp only [processReceipts] at h
    cases hs : stubStep faults k db r with
    | error e => rw [hs] at h; simp at h
    | ok p =>
      obtain ⟨custRows, k1⟩ := p
      rw [hs] at h
      simp only [] at h
      by_cases hdup : db.receipts.any
          (fun row => row.receipt_number == r.receipt_number) = true
      · simp [hdup] at h
      · simp only [hdup, Bool.false_eq_true, if_false] at h
        by_cases hk1 : faults k1 = true
        · simp [hk1] at h
        · simp only [hk1, Bool.false_eq_true, if_false] at h
          cases hli : lineItemsLoop faults r.receipt_number (k1 + 1)
              db.line_items [] r.line_items with
          | error e => rw [hli] at h; simp at h
          | ok q =>
            obtain ⟨liRows, summaries, k2⟩ := q
            rw [hli] at h
            simp only [] at h
            have hsum := lineItemsLoop_ok_summaries hli
            simp only [List.nil_append] at hsum
            have := ih h
            rw [this, hsum]
            simp [buildSummary, List.append_assoc]

lemma processReceipts_ok_sync_log {fd : Nat → String} {faults : Nat → Bool} :
    ∀ {k : Nat} {db : DB} {docs : List String} {rs : List ReceiptRecord}
      {out : DB × List String × Nat},
      processReceipts fd faults k db docs rs = Except.ok out →
      out.1.sync_log = db.sync_log := by
  intro k db docs rs
  induction rs generalizing k db docs with
  | nil =>
    intro out h
    simp only [processReceipts, Except.ok.injEq] at h
    simp [← h]
  | cons r rest ih =>
    intro out h
    simp only [processReceipts] at h
    cases hs : stubStep faults k db r with
    | error e => rw [hs] at h; simp at h
    | ok p =>
      obtain ⟨custRows, k1⟩ := p
      rw [hs] at h
      simp only [] at h
      by_cases hdup : db.receipts.any
          (fun row => row.receipt_number == r.receipt_number) = true
      · simp [hdup] at h
      · simp only [hdup, Bool.false_eq_true, if_false] at h
        by_cases hk1 : faults k1 = true
        · simp [hk1] at h
        · simp only [hk1, Bool.false_eq_true, if_false] at h
          cases hli : lineItemsLoop faults r.receipt_number (k1 + 1)
              db.line_items [] r.line_items with
          | error e => rw [hli] at h; simp at h
          | ok q =>
            obtain ⟨liRows, summaries, k2⟩ := q
            rw [hli] at h
            simp only [] at h
            have hrec := ih h
            exact hrec

lemma processReceipts_ok_no_dup {fd : Nat → String} {faults : Nat → Bool} :
    ∀ {k : Nat} {db : DB} {docs : List String} {rs : List ReceiptRecord}
      {out : DB × List String × Nat},
      processReceipts fd faults k db docs rs = Except.ok out →
      ∀ r ∈ rs, db.receipts.any
        (fun row => row.receipt_number == r.receipt_number) = false := by
  intro k db docs rs
  induction rs generalizing k db docs with
  | nil => intro out _ r hr; cases hr
  | cons r0 rest ih =>
    intro out h r hr
    simp only [processReceipts] at h
    cases hs : stubStep faults k db r0 with
    | error e => rw [hs] at h; simp at h
    | ok p =>
      obtain ⟨custRows, k1⟩ := p
      rw [hs] at h
      simp only [] at h
      by_cases hdup : db.receipts.any
          (fun row => row.receipt_number == r0.receipt_number) = true
      · simp [hdup] at h
      · simp only [hdup, Bool.false_eq_true, if_false] at h
        by_cases hk1 : faults k1 = true
        · simp [hk1] at h
        · simp only [hk1, Bool.false_eq_true, if_false] at h
          cases hli : lineItemsLoop faults r0.receipt_number (k1 + 1)
              db.line_items [] r0.line_items with
          | error e => rw [hli] at h; simp at h
          | ok q =>
            obtain ⟨liRows, summaries, k2⟩ := q
            rw [hli] at h
            simp only [] at h
            rcases List.mem_cons.mp hr with rfl | hr'
            · exact Bool.not_eq_true _ |>.mp hdup
            · have := ih h r hr'
              simp only [List.any_append, Bool.or_eq_false_iff] at this
              exact this.1

lemma syncBody_ok_sync_log {fd : Nat → String} {faults : Nat → Bool}
    {embed : List String → Bool} {fc : SyncParams → Except Unit CustomersResponse}
    {fr : SyncParams → Except Unit ReceiptsResponse} {now : Nat} {db : DB}
    {out : DB × List String × String}
    (h : syncBody fd faults embed fc fr now db = Except.ok out) :
    out.1.sync_log = db.sync_log ++ [now] ∨ out.1.sync_log = db.sync_log := by
  unfold syncBody at h
  cases hw : db.sync_log.getLast? with
  | none => rw [hw] at h; simp at h
  | some t =>
    rw [hw] at h
    simp only [] at h
    cases hfc : fc (mkSyncParams t now) with
    | error e => rw [hfc] at h; simp at h
    | ok custResp =>
      rw [hfc] at h
      simp only [] at h
      cases hup : upsertCustomersLoop faults 0 db.customers
          (custResp.customers.getD []) with
      | error e => rw [hup] at h; simp at h
      | ok p =>
        obtain ⟨custRows, k1⟩ := p
        rw [hup] at h
        simp only [] at h
        cases hfr : fr (mkSyncParams t now) with
        | error e => rw [hfr] at h; simp at h
        | ok rcptResp =>
          rw [hfr] at h
          simp only [] at h
          cases hrs : rcptResp.receipts with
          | none => rw [hrs] at h; simp at h
          | some receipts =>
            rw [hrs] at h
            simp only [syncTail] at h
            by_cases hempty : receipts.length = 0 ∧
                (custResp.customers.getD []).length = 0
            · right
              rw [if_pos hempty] at h
              simp only [Except.ok.injEq] at h
              rw [← h]
            · rw [if_neg hempty] at h
              cases hp : processReceipts fd faults k1
                  { db with customers := custRows } [] receipts with
              | error e => rw [hp] at h; simp at h
              | ok q =>
                obtain ⟨db2, docs, k2⟩ := q
                rw [hp] at h
                simp only [] at h
                by_cases hemb : docs.length > 0 ∧ embed docs = false
                · simp [hemb] at h
                · rw [if_neg hemb] at h
                  by_cases hk2 : faults k2 = true
                  · simp [hk2] at h
                  · simp only [hk2, Bool.false_eq_true, if_false,
                      Except.ok.injEq] at h
                    left
                    have hlog := processReceipts_ok_sync_log hp
                    rw [← h]
                    simp only []
                    rw [hlog]

lemma apiSync_fst_sync_log {fd : Nat → String} {faults : Nat → Bool}
    {embed : List String → Bool} {fc : SyncParams → Except Unit CustomersResponse}
    {fr : SyncParams → Except Unit ReceiptsResponse} {now : Nat} {db : DB} :
    (apiSync fd faults embed fc fr now db).1.sync_log = db.sync_log ∨
    (apiSync fd faults embed fc fr now db).1.sync_log = db.sync_log ++ [now] := by
  unfold apiSync
  cases h : syncBody fd faults embed fc fr now db with
  | error e => left; rfl
  | ok out =>
    obtain ⟨db2, docs, msg⟩ := out
    rcases syncBody_ok_sync_log h with h2 | h2
    · right; exact h2
    · left; exact h2

lemma mem_upsertCustomer {rows : List CustomerRow} {c : CustomerRecord}
    {r : CustomerRow} (hr : r ∈ upsertCustomer rows c) (hid : r.id = c.id) :
    r = rowOfRecord c := by
  unfold upsertCustomer at hr
  by_cases hany : rows.any (fun a => a.id == c.id) = true
  · rw [if_pos hany] at hr
    rcases List.mem_map.mp hr with ⟨a, _, ha⟩
    by_cases hac : a.id == c.id
    · rw [if_pos hac] at ha; exact ha.symm
    · rw [if_neg hac] at ha
      subst ha
      exact absurd (by simp [hid]) hac
  · rw [if_neg hany] at hr
    rcases List.mem_append.mp hr with hmem | hmem
    · have hf : rows.any (fun a => a.id == c.id) = false := by simpa using hany
      exact absurd (by simp [hid]) (List.any_eq_false.mp hf r hmem)
    · simpa using hmem

lemma any_upsertCustomer (rows : List CustomerRow) (c : CustomerRecord) :
    (upsertCustomer rows c).any (fun r => r.id == c.id) = true := by
  unfold upsertCustomer
  by_cases hany : rows.any (fun a => a.id == c.id) = true
  · rw [if_pos hany]
    rcases List.any_eq_true.mp hany with ⟨a, hmem, ha⟩
    refine List.any_eq_true.mpr ⟨rowOfRecord c, ?_, by simp [rowOfRecord]⟩
    refine List.mem_map.mpr ⟨a, hmem, ?_⟩
    rw [if_pos ha]
  · rw [if_neg hany]
    refine List.any_eq_true.mpr ⟨rowOfRecord c, ?_, by simp [rowOfRecord]⟩
    simp

lemma countP_upsertCustomer_of_any {rows : List CustomerRow} {c : CustomerRecord}
    (hany : rows.any (fun a => a.id == c.id) = true) :
    (upsertCustomer rows c).countP (fun r => r.id == c.id) =
      rows.countP (fun r => r.id == c.id) := by
  unfold upsertCustomer
  rw [if_pos hany, List.countP_map]
  refine List.countP_congr ?_
  intro a _
  by_cases hac : a.id == c.id
  · simp [Function.comp, hac, rowOfRecord]
  · simp [Function.comp, hac]

lemma countP_upsertCustomer {rows : List CustomerRow} {c : CustomerRecord}
    (h1 : rows.countP (fun r => r.id == c.id) ≤ 1) :
    (upsertCustomer rows c).countP (fun r => r.id == c.id) = 1 := by
  by_cases hany : rows.any (fun a => a.id == c.id) = true
  · rw [countP_upsertCustomer_of_any hany]
    rcases List.any_eq_true.mp hany with ⟨a, hmem, ha⟩
    have hpos : 0 < rows.countP (fun r => r.id == c.id) :=
      List.countP_pos_iff.mpr ⟨a, hmem, ha⟩
    omega
  · unfold upsertCustomer
    rw [if_neg hany, List.countP_append]
    have hf : rows.any (fun a => a.id == c.id) = false := by simpa using hany
    have hz : rows.countP (fun r => r.id == c.id) = 0 := by
      rw [List.countP_eq_zero]
      exact List.any_eq_false.mp hf
    rw [hz]
    simp [List.countP_cons, rowOfRecord]

lemma upsertCustomer_eq_self {l : List CustomerRow} {c : CustomerRecord}
    (hany : l.any (fun r => r.id == c.id) = true)
    (hmem : ∀ r ∈ l, r.id = c.id → r = rowOfRecord c) :
    upsertCustomer l c = l := by
  unfold upsertCustomer
  rw [if_pos hany]
  have hcongr : ∀ r ∈ l, (if r.id == c.id then rowOfRecord c else r) = id r := by
    intro r hr
    by_cases hrc : r.id == c.id
    · rw [if_pos hrc]
      exact (hmem r hr (by simpa using hrc)).symm
    · rw [if_neg hrc]; rfl
  rw [List.map_congr_left hcongr, List.map_id]

lemma upsertCustomer_idem (rows : List CustomerRow) (c : CustomerRecord) :
    upsertCustomer (upsertCustomer rows c) c = upsertCustomer rows c :=
  upsertCustomer_eq_self (any_upsertCustomer rows c)
    (fun _ hr hid => mem_upsertCustomer hr hid)

/-! ## Claim theorems -/

/-- C1: atomicity of a sync batch. Whenever any exception is raised inside
the try-block between the watermark read and the commit (any error of
`syncBody`, including an injected SQL write fault partway through a
receipt), the catch handler rolls the transaction back: the post-request
database is exactly the pre-sync database, so no row of the batch persists
(customers upserted earlier in the run included), the watermark log is
unchanged, and a 500 failure is reported to the caller. -/
theorem sync_rolls_back_on_error
    (fd : Nat → String) (faults : Nat → Bool) (embed : List String → Bool)
    (fc : SyncParams → Except Unit CustomersResponse)
    (fr : SyncParams → Except Unit ReceiptsResponse) (now : Nat) (db : DB)
    (e : SyncError) (h : syncBody fd faults embed fc fr now db = Except.error e) :
    apiSync fd faults embed fc fr now db = (db, ⟨500, errorBody⟩) :=
  apiSync_of_error h

/-- C1 witness: one customer is upserted, the receipt is inserted, then the
first line-item insert fails (write index 3); the run answers 500 and the
database, watermark log included, is left exactly as before the sync. -/
theorem sync_rolls_back_on_error_witness :
    apiSync fdX faultsAt3 embedYes fcOneA frOneA 7 dbA = (dbA, ⟨500, errorBody⟩) :=
  sync_rolls_back_on_error fdX faultsAt3 embedYes fcOneA frOneA 7 dbA
    (SyncError.persistenceFailed 3) rfl

/-- C4: idempotent last-write-wins customer upsert. Starting from a
customers relation with at most one row for the record id (the key
invariant), applying the upsert twice with the same record leaves exactly
one row for that id, every row with that id carries exactly the second
application values (name, email, phone_number, total_visits, total_spent
and updated_at are overwritten unconditionally — the statement imposes no
relation between the old and new updated_at), and the second application
changes nothing over the first. -/
theorem customer_upsert_idempotent_lww
    (rows : List CustomerRow) (c : CustomerRecord)
    (h1 : rows.countP (fun r => r.id == c.id) ≤ 1) :
    (upsertCustomer (upsertCustomer rows c) c).countP (fun r => r.id == c.id) = 1 ∧
    (∀ r ∈ upsertCustomer (upsertCustomer rows c) c, r.id = c.id → r = rowOfRecord c) ∧
    upsertCustomer (upsertCustomer rows c) c = upsertCustomer rows c := by
  refine ⟨?_, ?_, upsertCustomer_idem rows c⟩
  · rw [upsertCustomer_idem]
    exact countP_upsertCustomer h1
  · intro r hr hid
    rw [upsertCustomer_idem] at hr
    exact mem_upsertCustomer hr hid

/-- C4 witness: upserting the same record twice over a relation holding a
stub row for the id yields one row for the id, and the second application
equals the first. -/
theorem customer_upsert_idempotent_lww_witness :
    (upsertCustomer (upsertCustomer [stubRow "C1" 2] custA) custA).countP
        (fun r => r.id == custA.id) = 1 ∧
    upsertCustomer (upsertCustomer [stubRow "C1" 2] custA) custA =
      upsertCustomer [stubRow "C1" 2] custA :=
  ⟨(customer_upsert_idempotent_lww [stubRow "C1" 2] custA (by decide)).1,
   (customer_upsert_idempotent_lww [stubRow "C1" 2] custA (by decide)).2.2⟩

/-- C5: stub non-clobbering. When a row with the id already exists, the
`INSERT IGNORE` customer placeholder is a silent no-op (the relation, every
field of every row included, is returned unchanged); when the id is absent
it inserts exactly the placeholder row. -/
theorem customer_stub_non_clobbering
    (rows : List CustomerRow) (cid : String) (t : Nat) :
    (rows.any (fun r => r.id == cid) = true → insertIgnoreStub rows cid t = rows) ∧
    (rows.any (fun r => r.id == cid) = false →
      insertIgnoreStub rows cid t = rows ++ [stubRow cid t]) := by
  constructor
  · intro h
    unfold insertIgnoreStub
    rw [if_pos h]
  · intro h
    unfold insertIgnoreStub
    rw [if_neg (by simp [h])]

/-- C5 witness: a stub insert over an existing authoritative row for C1 is
a no-op, and a stub insert for an absent id C2 appends the placeholder. -/
theorem customer_stub_non_clobbering_witness :
    insertIgnoreStub [rowOfRecord custA] "C1" 9 = [rowOfRecord custA] ∧
    insertIgnoreStub [] "C2" 9 = [] ++ [stubRow "C2" 9] :=
  ⟨(customer_stub_non_clobbering [rowOfRecord custA] "C1" 9).1 (by decide),
   (customer_stub_non_clobbering [] "C2" 9).2 (by decide)⟩

/-- C6: no-op sync. When the watermark read succeeds and both fetches
return empty result lists, the sync performs no write at all: it commits
as a no-op, answers 200 with the no-new-data message, and the post-request
database — watermark log and all relations — equals the pre-sync one. -/
theorem empty_batch_noop_sync
    (fd : Nat → String) (faults : Nat → Bool) (embed : List String → Bool)
    (fc : SyncParams → Except Unit CustomersResponse)
    (fr : SyncParams → Except Unit ReceiptsResponse) (now : Nat) (db : DB)
    (t : Nat) (cresp : CustomersResponse)
    (h1 : db.sync_log.getLast? = some t)
    (h2 : fc (mkSyncParams t now) = Except.ok cresp)
    (h3 : cresp.customers.getD [] = [])
    (h4 : fr (mkSyncParams t now) = Except.ok ⟨some []⟩) :
    apiSync fd faults embed fc fr now db = (db, ⟨200, "No new data to sync."⟩) := by
  have hbody : syncBody fd faults embed fc fr now db =
      Except.ok (db, [], "No new data to sync.") := by
    unfold syncBody
    rw [h1]
    simp only []
    rw [h2]
    simp only []
    rw [h3]
    simp only [upsertCustomersLoop]
    rw [h4]
    simp only [syncTail, List.length_nil]
    rfl
  unfold apiSync
  rw [hbody]

/-- C6 witness: with empty fetch results on a store holding watermark 5,
the sync answers the no-new-data message and leaves the store untouched. -/
theorem empty_batch_noop_sync_witness :
    apiSync fdX noFaults embedYes fcEmpty frEmpty 7 dbA =
      (dbA, ⟨200, "No new data to sync."⟩) :=
  empty_batch_noop_sync fdX noFaults embedYes fcEmpty frEmpty 7 dbA 5 ⟨some []⟩
    rfl rfl rfl rfl

/-- C9: first-run NotFound is surfaced, not defaulted. On a database whose
watermark log is empty, `GET /api/sync-status` answers the distinct 404
no-sync-yet condition, and `POST /api/sync` does not proceed with a
silently defaulted window: the watermark read raises, the run rolls back
and answers 500 with the database unchanged. -/
theorem first_run_notfound_surfaced :
    (∀ (fmt : Nat → String) (db : DB), db.sync_log = [] →
      syncStatus fmt db = ⟨404, "No sync has been performed yet."⟩) ∧
    (∀ (fd : Nat → String) (faults : Nat → Bool) (embed : List String → Bool)
      (fc : SyncParams → Except Unit CustomersResponse)
      (fr : SyncParams → Except Unit ReceiptsResponse) (now : Nat) (db : DB),
      db.sync_log = [] →
      apiSync fd faults embed fc fr now db = (db, ⟨500, errorBody⟩)) := by
  constructor
  · intro fmt db h
    unfold syncStatus
    rw [h]
    rfl
  · intro fd faults embed fc fr now db h
    refine apiSync_of_error (e := SyncError.watermarkMissing) ?_
    unfold syncBody
    rw [h]
    rfl

/-- C2: duplicate receipt is a hard failure. When some fetched receipt
carries a receipt_number that already exists in the receipts relation at
sync start, the plain insert against the unique key necessarily fails (no
merge path exists in the model), so the whole sync aborts: the caller gets
a 500 and the post-request database — the watermark log in particular —
is exactly the pre-sync one. -/
theorem duplicate_receipt_aborts_sync
    (fd : Nat → String) (faults : Nat → Bool) (embed : List String → Bool)
    (fc : SyncParams → Except Unit CustomersResponse)
    (fr : SyncParams → Except Unit ReceiptsResponse) (now : Nat) (db : DB)
    (t : Nat) (cresp : CustomersResponse) (rs : List ReceiptRecord) (r : ReceiptRecord)
    (h1 : db.sync_log.getLast? = some t)
    (h2 : fc (mkSyncParams t now) = Except.ok cresp)
    (h3 : fr (mkSyncParams t now) = Except.ok ⟨some rs⟩)
    (hmem : r ∈ rs)
    (hdup : db.receipts.any
      (fun row => row.receipt_number == r.receipt_number) = true) :
    apiSync fd faults embed fc fr now db = (db, ⟨500, errorBody⟩) := by
  cases hbody : syncBody fd faults embed fc fr now db with
  | error e => exact apiSync_of_error hbody
  | ok out =>
    exfalso
    unfold syncBody at hbody
    rw [h1] at hbody
    simp only [] at hbody
    rw [h2] at hbody
    simp only [] at hbody
    cases hup : upsertCustomersLoop faults 0 db.customers (cresp.customers.getD []) with
    | error e => rw [hup] at hbody; simp at hbody
    | ok p =>
      obtain ⟨custRows, k1⟩ := p
      rw [hup] at hbody
      simp only [] at hbody
      rw [h3] at hbody
      simp only [syncTail] at hbody
      by_cases hempty : rs.length = 0 ∧ (cresp.customers.getD []).length = 0
      · rcases hempty with ⟨hlen, _⟩
        rw [List.length_eq_zero] at hlen
        subst hlen
        cases hmem
      · rw [if_neg hempty] at hbody
        cases hp : processReceipts fd faults k1 { db with customers := custRows } [] rs with
        | error e => rw [hp] at hbody; simp at hbody
        | ok q =>
          have hfalse := processReceipts_ok_no_dup hp r hmem
          exact absurd (hdup.symm.trans hfalse) (by decide)

/-- C2 witness: a sync that fetches R-100 while the store already holds
receipt R-100 answers 500 and leaves the store, watermark included, at its
prior value. -/
theorem duplicate_receipt_aborts_sync_witness :
    apiSync fdX noFaults embedYes fcEmpty frOneA 7 dbDup =
      (dbDup, ⟨500, errorBody⟩) :=
  duplicate_receipt_aborts_sync fdX noFaults embedYes fcEmpty frOneA 7 dbDup 5
    ⟨some []⟩ [rcptA] rcptA rfl rfl rfl (List.mem_singleton.mpr rfl) rfl

/-- C8: document builder output. Whenever the receipt loop completes, the
accumulated document list extends the incoming one with, for each receipt
in list order, exactly the text built from that receipt alone: the fixed
frame around the formatted created_at, the receipt_number and the
total_money, then the comma-joined quantity-of-item clauses of its line
items in list order, terminated by a period. Being a Lean function of the
receipt, the builder is deterministic and pure. -/
theorem document_builder_output
    (fd : Nat → String) (faults : Nat → Bool) (k : Nat) (db : DB)
    (docs : List String) (rs : List ReceiptRecord) (out : DB × List String × Nat)
    (h : processReceipts fd faults k db docs rs = Except.ok out) :
    out.2.1 = docs ++ rs.map (fun r =>
      "On " ++ fd r.created_at ++ ", receipt " ++ r.receipt_number ++
        " was created totaling " ++ toString r.total_money ++ ". Items sold: " ++
        String.intercalate ", " (r.line_items.map (fun it =>
          toString it.quantity ++ " of " ++ it.item_name)) ++ ".") :=
  processReceipts_ok_docs h

/-- C8 witness: processing the two-line-item receipt R-100 produces exactly
the expected document text. -/
theorem document_builder_output_witness :
    outA.2.1 = [] ++ [rcptA].map (fun r =>
      "On " ++ fdX r.created_at ++ ", receipt " ++ r.receipt_number ++
        " was created totaling " ++ toString r.total_money ++ ". Items sold: " ++
        String.intercalate ", " (r.line_items.map (fun it =>
          toString it.quantity ++ " of " ++ it.item_name)) ++ ".") :=
  document_builder_output fdX noFaults 0 dbA [] [rcptA] outA rfl

/-- C9 witness: on the empty store, sync-status answers the 404 no-sync-yet
condition and a sync attempt answers 500 leaving the store unchanged. -/
theorem first_run_notfound_surfaced_witness :
    syncStatus fdX dbEmpty = ⟨404, "No sync has been performed yet."⟩ ∧
    apiSync fdX noFaults embedYes fcEmpty frEmpty 7 dbEmpty =
      (dbEmpty, ⟨500, errorBody⟩) :=
  ⟨first_run_notfound_surfaced.1 fdX dbEmpty rfl,
   first_run_notfound_surfaced.2 fdX noFaults embedYes fcEmpty frEmpty 7 dbEmpty rfl⟩

/-- C10: asymmetric response-shape defaulting at the fetch boundary. A
customers response body lacking the customers field behaves exactly like
one carrying an empty list (the handler defaults it and proceeds); but a
receipts response body lacking the receipts field makes the sync fail
unconditionally — whatever the other inputs do, the run answers 500 with
the database rolled back, never treating the missing array as an empty
window. -/
theorem asymmetric_fetch_defaulting :
    (∀ (fd : Nat → String) (faults : Nat → Bool) (embed : List String → Bool)
      (fc fc2 : SyncParams → Except Unit CustomersResponse)
      (fr : SyncParams → Except Unit ReceiptsResponse) (now : Nat) (db : DB) (t : Nat),
      db.sync_log.getLast? = some t →
      fc (mkSyncParams t now) = Except.ok ⟨none⟩ →
      fc2 (mkSyncParams t now) = Except.ok ⟨some []⟩ →
      syncBody fd faults embed fc fr now db = syncBody fd faults embed fc2 fr now db) ∧
    (∀ (fd : Nat → String) (faults : Nat → Bool) (embed : List String → Bool)
      (fc : SyncParams → Except Unit CustomersResponse)
      (fr : SyncParams → Except Unit ReceiptsResponse) (now : Nat) (db : DB) (t : Nat),
      db.sync_log.getLast? = some t →
      fr (mkSyncParams t now) = Except.ok ⟨none⟩ →
      apiSync fd faults embed fc fr now db = (db, ⟨500, errorBody⟩)) := by
  constructor
  · intro fd faults embed fc fc2 fr now db t h1 h2 h3
    unfold syncBody
    rw [h1]
    simp only []
    rw [h2, h3]
    rfl
  · intro fd faults embed fc fr now db t h1 h2
    cases hbody : syncBody fd faults embed fc fr now db with
    | error e => exact apiSync_of_error hbody
    | ok out =>
      exfalso
      unfold syncBody at hbody
      rw [h1] at hbody
      simp only [] at hbody
      cases hfc : fc (mkSyncParams t now) with
      | error e => rw [hfc] at hbody; simp at hbody
      | ok cresp =>
        rw [hfc] at hbody
        simp only [] at hbody
        cases hup : upsertCustomersLoop faults 0 db.customers (cresp.customers.getD []) with
        | error e => rw [hup] at hbody; simp at hbody
        | ok p =>
          obtain ⟨custRows, k1⟩ := p
          rw [hup] at hbody
          simp only [] at hbody
          rw [h2] at hbody
          simp at hbody

/-- C10 witness: a customers body without the field behaves like an empty
list, while a receipts body without the field fails the sync with a 500
and an unchanged store. -/
theorem asymmetric_fetch_defaulting_witness :
    (syncBody fdX noFaults embedYes fcNone frEmpty 7 dbA =
      syncBody fdX noFaults embedYes fcEmpty frEmpty 7 dbA) ∧
    apiSync fdX noFaults embedYes fcEmpty frNone 7 dbA = (dbA, ⟨500, errorBody⟩) :=
  ⟨asymmetric_fetch_defaulting.1 fdX noFaults embedYes fcNone fcEmpty frEmpty 7 dbA 5
      rfl rfl rfl,
   asymmetric_fetch_defaulting.2 fdX noFaults embedYes fcEmpty frNone 7 dbA 5 rfl rfl⟩

/-- C3: watermark coherence and monotonicity. First, one `now` instant
drives the whole invocation: the run consults the two fetch oracles only at
the single parameter record whose created_at_max is `now` (two oracle pairs
agreeing there induce the same run), so both fetches share the window end.
Second, a successful run appends exactly `[now]` to the watermark log, or
appends nothing (the no-op commit); the log is never overwritten. Third,
over any sequence of invocations whose capture instants extend the log in
non-decreasing order, the final log is the initial log extended by a
subsequence of the per-invocation `now` values in order — each appended
entry equals the `now` captured at the start of that sync — and stays
non-decreasing. -/
theorem watermark_coherent_monotone :
    (∀ (fd : Nat → String) (faults : Nat → Bool) (embed : List String → Bool)
      (fc fc2 : SyncParams → Except Unit CustomersResponse)
      (fr fr2 : SyncParams → Except Unit ReceiptsResponse) (now : Nat) (db : DB)
      (t : Nat),
      db.sync_log.getLast? = some t →
      fc2 (mkSyncParams t now) = fc (mkSyncParams t now) →
      fr2 (mkSyncParams t now) = fr (mkSyncParams t now) →
      syncBody fd faults embed fc2 fr2 now db = syncBody fd faults embed fc fr now db) ∧
    (∀ (fd : Nat → String) (faults : Nat → Bool) (embed : List String → Bool)
      (fc : SyncParams → Except Unit CustomersResponse)
      (fr : SyncParams → Except Unit ReceiptsResponse) (now : Nat) (db : DB)
      (out : DB × List String × String),
      syncBody fd faults embed fc fr now db = Except.ok out →
      out.1.sync_log = db.sync_log ++ [now] ∨ out.1.sync_log = db.sync_log) ∧
    (∀ (db : DB) (invs : List Invocation),
      List.Sorted (fun a b => a ≤ b) (db.sync_log ++ invs.map Invocation.now) →
      ∃ l, List.Sublist l (invs.map Invocation.now) ∧
        (runSyncs db invs).sync_log = db.sync_log ++ l ∧
        List.Sorted (fun a b => a ≤ b) (runSyncs db invs).sync_log) := by
  refine ⟨?_, ?_, ?_⟩
  · intro fd faults embed fc fc2 fr fr2 now db t h1 h2 h3
    unfold syncBody
    rw [h1]
    simp only []
    rw [h2, h3]
  · intro fd faults embed fc fr now db out h
    exact syncBody_ok_sync_log h
  · intro db invs
    induction invs generalizing db with
    | nil =>
      intro h
      refine ⟨[], List.nil_sublist _, by simp [runSyncs], ?_⟩
      simpa [runSyncs] using h
    | cons i rest ih =>
      intro h
      simp only [List.map_cons] at h
      rcases @apiSync_fst_sync_log i.fd i.faults i.embed i.fc i.fr i.now db
        with hcase | hcase
      · have hsorted : List.Sorted (fun a b => a ≤ b)
            ((apiSync i.fd i.faults i.embed i.fc i.fr i.now db).1.sync_log ++
              rest.map Invocation.now) := by
          rw [hcase]
          exact List.Pairwise.sublist
            (List.Sublist.append_left (List.sublist_cons_self _ _) _) h
        obtain ⟨l, hsub, heq, hsort⟩ := ih _ hsorted
        refine ⟨l, List.Sublist.cons _ hsub, ?_, ?_⟩
        · show (runSyncs (apiSync i.fd i.faults i.embed i.fc i.fr i.now db).1
            rest).sync_log = db.sync_log ++ l
          rw [heq, hcase]
        · exact hsort
      · have hsorted : List.Sorted (fun a b => a ≤ b)
            ((apiSync i.fd i.faults i.embed i.fc i.fr i.now db).1.sync_log ++
              rest.map Invocation.now) := by
          rw [hcase, List.append_assoc]
          simpa using h
        obtain ⟨l, hsub, heq, hsort⟩ := ih _ hsorted
        refine ⟨i.now :: l, List.Sublist.cons₂ _ hsub, ?_, ?_⟩
        · show (runSyncs (apiSync i.fd i.faults i.embed i.fc i.fr i.now db).1
            rest).sync_log = db.sync_log ++ i.now :: l
          rw [heq, hcase, List.append_assoc]
          rfl
        · exact hsort

/-- C3 witness: an oracle pair answering only the window ending at the
captured instant 7 makes the same run as the always-answering pair; the
successful run invA appends exactly its captured instant 7 to the log
[5]; and running invA then invB over the log [5] with capture instants
7 and 9 extends the log by a subsequence of [7, 9] in non-decreasing
order. -/
theorem watermark_coherent_monotone_witness :
    (syncBody fdX noFaults embedYes fcAlt frEmpty 7 dbA =
      syncBody fdX noFaults embedYes fcEmpty frEmpty 7 dbA) ∧
    (outB.1.sync_log = dbA.sync_log ++ [7] ∨ outB.1.sync_log = dbA.sync_log) ∧
    (∃ l, List.Sublist l ([invA, invB].map Invocation.now) ∧
      (runSyncs dbA [invA, invB]).sync_log = dbA.sync_log ++ l ∧
      List.Sorted (fun a b => a ≤ b) (runSyncs dbA [invA, invB]).sync_log) :=
  ⟨watermark_coherent_monotone.1 fdX noFaults embedYes fcEmpty fcAlt frEmpty frEmpty
      7 dbA 5 rfl rfl rfl,
   watermark_coherent_monotone.2.1 fdX noFaults embedYes fcOneA frEmpty 7 dbA outB rfl,
   watermark_coherent_monotone.2.2 dbA [invA, invB] (by decide)⟩

/-- C7: indexing hand-off. First, the run consults the indexing
collaborator only at the single point holding the full batch of built
documents — one document per fetched receipt, in order — so two indexing
services agreeing on that one batch induce the same run (at most one call,
always with the full batch). Second, when the fetched receipts list is
empty no document is built and the run never consults the indexing
service at all (any two services induce the same run). Third, when
documents were built and the indexing call fails, the entire sync fails:
the caller gets a 500 and the database — the watermark log, which is only
written after the indexing call, in particular — is exactly the pre-sync
one. -/
theorem indexing_handoff :
    (∀ (fd : Nat → String) (faults : Nat → Bool) (embed embed2 : List String → Bool)
      (fc : SyncParams → Except Unit CustomersResponse)
      (fr : SyncParams → Except Unit ReceiptsResponse) (now : Nat) (db : DB)
      (t : Nat) (cresp : CustomersResponse) (rs : List ReceiptRecord),
      db.sync_log.getLast? = some t →
      fc (mkSyncParams t now) = Except.ok cresp →
      fr (mkSyncParams t now) = Except.ok ⟨some rs⟩ →
      embed2 (rs.map (buildSummary fd)) = embed (rs.map (buildSummary fd)) →
      syncBody fd faults embed2 fc fr now db = syncBody fd faults embed fc fr now db) ∧
    (∀ (fd : Nat → String) (faults : Nat → Bool) (embed embed2 : List String → Bool)
      (fc : SyncParams → Except Unit CustomersResponse)
      (fr : SyncParams → Except Unit ReceiptsResponse) (now : Nat) (db : DB)
      (t : Nat) (cresp : CustomersResponse),
      db.sync_log.getLast? = some t →
      fc (mkSyncParams t now) = Except.ok cresp →
      fr (mkSyncParams t now) = Except.ok ⟨some []⟩ →
      syncBody fd faults embed2 fc fr now db = syncBody fd faults embed fc fr now db) ∧
    (∀ (fd : Nat → String) (faults : Nat → Bool) (embed : List String → Bool)
      (fc : SyncParams → Except Unit CustomersResponse)
      (fr : SyncParams → Except Unit ReceiptsResponse) (now : Nat) (db : DB)
      (t : Nat) (cresp : CustomersResponse) (rs : List ReceiptRecord)
      (custRows : List CustomerRow) (k1 : Nat) (db2 : DB) (docs : List String)
      (k2 : Nat),
      db.sync_log.getLast? = some t →
      fc (mkSyncParams t now) = Except.ok cresp →
      fr (mkSyncParams t now) = Except.ok ⟨some rs⟩ →
      upsertCustomersLoop faults 0 db.customers (cresp.customers.getD []) =
        Except.ok (custRows, k1) →
      processReceipts fd faults k1 { db with customers := custRows } [] rs =
        Except.ok (db2, docs, k2) →
      docs ≠ [] →
      embed docs = false →
      apiSync fd faults embed fc fr now db = (db, ⟨500, errorBody⟩)) := by
  refine ⟨?_, ?_, ?_⟩
  · intro fd faults embed embed2 fc fr now db t cresp rs h1 h2 h3 h4
    unfold syncBody
    rw [h1]
    simp only []
    rw [h2]
    simp only []
    cases hup : upsertCustomersLoop faults 0 db.customers (cresp.customers.getD []) with
    | error e => rfl
    | ok p =>
      obtain ⟨custRows, k1⟩ := p
      simp only []
      rw [h3]
      simp only [syncTail]
      by_cases hempty : rs.length = 0 ∧ (cresp.customers.getD []).length = 0
      · rw [if_pos hempty, if_pos hempty]
      · rw [if_neg hempty, if_neg hempty]
        cases hp : processReceipts fd faults k1 { db with customers := custRows } [] rs with
        | error e => rfl
        | ok q =>
          obtain ⟨db2, docs, k2⟩ := q
          simp only []
          have hdocs := processReceipts_ok_docs hp
          simp only [List.nil_append] at hdocs
          rw [← hdocs] at h4
          rw [h4]
  · intro fd faults embed embed2 fc fr now db t cresp h1 h2 h3
    unfold syncBody
    rw [h1]
    simp only []
    rw [h2]
    simp only []
    cases hup : upsertCustomersLoop faults 0 db.customers (cresp.customers.getD []) with
    | error e => rfl
    | ok p =>
      obtain ⟨custRows, k1⟩ := p
      simp only []
      rw [h3]
      simp only [syncTail]
      by_cases hempty : ([] : List ReceiptRecord).length = 0 ∧
          (cresp.customers.getD []).length = 0
      · rw [if_pos hempty, if_pos hempty]
      · rw [if_neg hempty, if_neg hempty]
        simp only [processReceipts]
        have hno : ¬(([] : List String).length > 0 ∧ embed2 [] = false) := by simp
        have hno2 : ¬(([] : List String).length > 0 ∧ embed [] = false) := by simp
        rw [if_neg hno, if_neg hno2]
  · intro fd faults embed fc fr now db t cresp rs custRows k1 db2 docs k2
      h1 h2 h3 h4 h5 h6 h7
    have hbody : syncBody fd faults embed fc fr now db =
        Except.error SyncError.indexingFailed := by
      unfold syncBody
      rw [h1]
      simp only []
      rw [h2]
      simp only []
      rw [h4]
      simp only []
      rw [h3]
      simp only [syncTail]
      have hrs : rs ≠ [] := by
        intro hrs0
        subst hrs0
        have hd := processReceipts_ok_docs h5
        simp at hd
        exact h6 hd
      have hempty : ¬(rs.length = 0 ∧ (cresp.customers.getD []).length = 0) := by
        intro hc
        exact hrs (List.length_eq_zero.mp hc.1)
      rw [if_neg hempty, h5]
      simp only []
      rw [if_pos ⟨List.length_pos.mpr h6, h7⟩]
    exact apiSync_of_error hbody

/-- C7 witness: an indexing service keyed on one-document batches behaves
like the always-accepting one on the single-receipt fetch; with an empty
receipts fetch the always-rejecting and always-accepting services make the
same run; and when the indexing call for the built document fails the sync
answers 500 and leaves the store, watermark included, unchanged. -/
theorem indexing_handoff_witness :
    (syncBody fdX noFaults embedOneDoc fcEmpty frOneA 7 dbA =
      syncBody fdX noFaults embedYes fcEmpty frOneA 7 dbA) ∧
    (syncBody fdX noFaults embedNo fcOneA frEmpty 7 dbA =
      syncBody fdX noFaults embedYes fcOneA frEmpty 7 dbA) ∧
    apiSync fdX noFaults embedNo fcEmpty frOneA 7 dbA = (dbA, ⟨500, errorBody⟩) :=
  ⟨indexing_handoff.1 fdX noFaults embedYes embedOneDoc fcEmpty frOneA 7 dbA 5
      ⟨some []⟩ [rcptA] rfl rfl rfl rfl,
   indexing_handoff.2.1 fdX noFaults embedYes embedNo fcOneA frEmpty 7 dbA 5
      ⟨some [custA]⟩ rfl rfl rfl,
   indexing_handoff.2.2 fdX noFaults embedNo fcEmpty frOneA 7 dbA 5 ⟨some []⟩
      [rcptA] [] 0 outA.1 outA.2.1 4 rfl rfl rfl rfl rfl (by simp [outA]) rfl⟩

end LoyverseSync
